import Mathlib

/-!
Verification development for the yt-render-ffmpeg service (src/app.py).

The single source file is a Flask app exposing a POST /render endpoint that
downloads an audio track and a list of scene images, encodes one fixed-length
video segment per scene with ffmpeg, concatenates the segments, muxes the
audio, uploads the result, and cleans up its temporary files in a finally
block.

Shallow embedding conventions:
  * JSON request fields are pre-parsed into typed options (`Option`), with
    absent and JSON-null both mapped to `none`; Python string coercions of
    non-string values (`str(u)`, `float(x)` raising on bad input) are outside
    the modelled input space.
  * Python floats (scene `seconds`) are modelled as rationals; the program
    only compares them with 0 and passes them to the encoder, so no rounding
    behavior is at stake.
  * Every external effect (HTTP download, ffmpeg subprocess, Cloudinary
    upload, file removal) is resolved by an oracle `World`, so one pure
    function captures every control path of the handler.
  * Temporary path names produced by mkstemp/mkdtemp are nondeterministic; we
    abstract each per-request temporary file by its role (`ScratchFile`) and
    give each role a fixed representative path string.
  * `str.strip()` is modelled over the character list with
    `Char.isWhitespace`; the Unicode whitespace classes of Python and Lean
    differ outside ASCII, which no claim depends on.
-/

/-- Quote characters used by `clean_url`, written by code point to keep the
source text free of quote literals. -/
def dquote : Char := Char.ofNat 34

/-- The single-quote character (code point 39). -/
def squote : Char := Char.ofNat 39

/-- Python `str.strip()`: drop leading and trailing whitespace. -/
def pyStrip (l : List Char) : List Char :=
  ((l.dropWhile Char.isWhitespace).reverse.dropWhile Char.isWhitespace).reverse

/-- Lines 40-41 of app.py: if the string starts and ends with the same quote
character (double or single), take `s[1:-1]`. -/
def stripMatchingQuotes (l : List Char) : List Char :=
  if (l.head? = some dquote ∧ l.getLast? = some dquote) ∨
     (l.head? = some squote ∧ l.getLast? = some squote) then
    (l.drop 1).dropLast
  else l

/-- `clean_url` from app.py lines 36-42: `None` becomes the empty string,
otherwise strip whitespace and one pair of matching surrounding quotes.  The
source comment states the URL is then used exactly as sent. -/
def clean_url (u : Option String) : String :=
  match u with
  | none => ""
  | some v => ⟨stripMatchingQuotes (pyStrip v.data)⟩

/-- One entry of the `scenes` array of the request body. -/
structure SceneJson where
  image_url : Option String := none
  seconds : Option ℚ := none
deriving DecidableEq

/-- The parsed /render request body. -/
structure RenderRequest where
  size_w : Option Int := none
  size_h : Option Int := none
  fps : Option Int := none
  audio_url : Option String := none
  scenes : Option (List SceneJson) := none

/-- The normalized image URL of a scene: `clean_url(s.get("image_url", ""))`. -/
def sceneUrl (s : SceneJson) : String :=
  clean_url (some (s.image_url.getD ""))

/-- The scene duration: `float(s.get("seconds", 5))`. -/
def sceneSecs (s : SceneJson) : ℚ :=
  s.seconds.getD 5

/-- Line 97 of app.py: a scene is skipped when its normalized URL is empty or
its duration is not strictly positive. -/
def sceneSkipped (s : SceneJson) : Prop :=
  sceneUrl s = "" ∨ sceneSecs s ≤ 0

instance (s : SceneJson) : Decidable (sceneSkipped s) :=
  inferInstanceAs (Decidable (_ ∨ _))

/-- The number of scenes that pass the skip filter. -/
def validSceneCount (scenes : List SceneJson) : Nat :=
  (scenes.filter fun s => !(decide (sceneSkipped s))).length

/-- The per-request temporary files, identified by role.  Images and segments
carry the 1-based scene index used in their file names. -/
inductive ScratchFile where
  | audio
  | image (i : Nat)
  | segment (i : Nat)
  | listFile
  | concatFile
  | outFile
deriving DecidableEq

/-- Two-digit formatting, as in the `f"_{i:02d}"` suffixes. -/
def pad2 (i : Nat) : String :=
  if i < 10 then "0" ++ toString i else toString i

/-- Representative path for each scratch-file role (mkstemp/mkdtemp names are
abstracted, see the header comment). -/
def pathOf : ScratchFile → String
  | ScratchFile.audio => "audio.mp3"
  | ScratchFile.image i => "img_" ++ pad2 i ++ ".jpg"
  | ScratchFile.segment i => "workdir/seg_" ++ pad2 i ++ ".mp4"
  | ScratchFile.listFile => "workdir/list.txt"
  | ScratchFile.concatFile => "workdir/concat.mp4"
  | ScratchFile.outFile => "workdir/out.mp4"

/-- The `-vf` filter string of the segment encode, app.py lines 102-105. -/
def vf_filter (W H : Int) : String :=
  "scale=w=" ++ toString W ++ ":h=" ++ toString H ++
  ":force_original_aspect_ratio=decrease," ++
  "pad=" ++ toString W ++ ":" ++ toString H ++ ":(ow-iw)/2:(oh-ih)/2:color=black"

/-- The per-scene encode command, app.py lines 107-118. -/
def cmd_seg (secs : ℚ) (fps : Int) (img_path vf seg_path : String) : List String :=
  ["ffmpeg", "-y",
   "-loop", "1",
   "-t", toString secs,
   "-r", toString fps,
   "-i", img_path,
   "-vf", vf,
   "-c:v", "libx264",
   "-pix_fmt", "yuv420p",
   "-movflags", "+faststart",
   seg_path]

/-- The concat command, app.py lines 130-136. -/
def cmd_concat (list_path concat_path : String) : List String :=
  ["ffmpeg", "-y",
   "-f", "concat", "-safe", "0",
   "-i", list_path,
   "-c", "copy",
   concat_path]

/-- The mux command, app.py lines 140-148. -/
def cmd_mux (concat_path audio_path out_path : String) : List String :=
  ["ffmpeg", "-y",
   "-i", concat_path,
   "-i", audio_path,
   "-c:v", "copy",
   "-c:a", "aac", "-b:a", "192k",
   "-shortest",
   out_path]

/-- The mux command as issued by the handler (on the representative paths). -/
def mux_cmd : List String :=
  cmd_mux (pathOf ScratchFile.concatFile) (pathOf ScratchFile.audio)
    (pathOf ScratchFile.outFile)

/-- Observable operations completed during a request, in order. -/
inductive Event where
  | fetchAudio (url : String)
  | fetchImage (i : Nat) (url : String)
  | encodeSeg (i : Nat)
  | concatStep
  | muxStep
  | uploadStep
deriving DecidableEq

/-- A Python exception escaping the pipeline body: either a
`subprocess.CalledProcessError` (with its captured output) or any other
exception (with its message). -/
inductive PyExc where
  | calledProcess (output : String)
  | other (msg : String)
deriving DecidableEq

/-- The `meta` object of the success response. -/
structure Meta where
  w : Int
  h : Int
  fps : Int
  scenes : Nat
deriving DecidableEq

/-- Flattened JSON response plus HTTP status code.  Each optional field is
present in the JSON object exactly when it is `some`. -/
structure HttpResponse where
  code : Nat
  status : String
  error : Option String := none
  stage : Option String := none
  stderr : Option String := none
  video_url : Option String := none
  meta : Option Meta := none
deriving DecidableEq

/-- The two `except` clauses of app.py lines 172-176. -/
def excResp : PyExc → HttpResponse
  | PyExc.calledProcess out =>
      { code := 500, status := "error", stage := some ("ffmpeg"), stderr := some out }
  | PyExc.other msg =>
      { code := 500, status := "error", error := some msg }

/-- Mutable request-local state of the handler: events completed so far and
which scratch files exist (the lists mirror `local_imgs` / `seg_files`). -/
structure RunState where
  events : List Event := []
  local_audio : Bool := false
  local_imgs : List Nat := []
  seg_files : List Nat := []
  list_written : Bool := false
  concat_done : Bool := false
  mux_done : Bool := false
deriving DecidableEq

/-- The scratch files in existence for a given state. -/
def RunState.created (st : RunState) : List ScratchFile :=
  (if st.local_audio then [ScratchFile.audio] else []) ++
  st.local_imgs.map ScratchFile.image ++
  st.seg_files.map ScratchFile.segment ++
  (if st.list_written then [ScratchFile.listFile] else []) ++
  (if st.concat_done then [ScratchFile.concatFile] else []) ++
  (if st.mux_done then [ScratchFile.outFile] else [])

/-- The deletion sequence of the finally block, app.py lines 178-187: the
audio file (if any), then `local_imgs + seg_files`, then the concat
intermediate and the final output (each guarded by an existence check).  Note
that `list.txt` is absent from this sequence. -/
def RunState.cleanupCandidates (st : RunState) : List ScratchFile :=
  (if st.local_audio then [ScratchFile.audio] else []) ++
  (st.local_imgs.map ScratchFile.image ++ st.seg_files.map ScratchFile.segment) ++
  [ScratchFile.concatFile, ScratchFile.outFile]

/-- Oracle resolving every external effect of one request. -/
structure World where
  fetchOk : String → Bool
  fetchErr : String → String
  ffmpegOk : List String → Bool
  ffmpegOut : List String → String
  cloudinary_url : String
  uploadOk : Bool
  secure_url : String
  uploadErr : String
  removeOk : ScratchFile → Bool

/-- All external collaborators succeed. -/
def World.allOk (w : World) : Prop :=
  (∀ u, w.fetchOk u = true) ∧ (∀ c, w.ffmpegOk c = true) ∧
  w.cloudinary_url ≠ "" ∧ w.uploadOk = true

/-- The scene loop of app.py lines 94-120, over `enumerate(scenes, start=1)`
pairs.  Returns the state reached and the escaping exception, if any: a
failed image download raises a generic exception, a failed encode raises
`CalledProcessError`. -/
def processScenes (w : World) (W H fps : Int) :
    List (Nat × SceneJson) → RunState → RunState × Option PyExc
  | [], st => (st, none)
  | p :: rest, st =>
    if sceneSkipped p.2 then
      processScenes w W H fps rest st
    else if w.fetchOk (sceneUrl p.2) = false then
      (st, some (PyExc.other (w.fetchErr (sceneUrl p.2))))
    else
      let st1 : RunState :=
        { st with events := st.events ++ [Event.fetchImage p.1 (sceneUrl p.2)],
                  local_imgs := st.local_imgs ++ [p.1] }
      let cmd := cmd_seg (sceneSecs p.2) fps (pathOf (ScratchFile.image p.1))
        (vf_filter W H) (pathOf (ScratchFile.segment p.1))
      if w.ffmpegOk cmd = false then
        (st1, some (PyExc.calledProcess (w.ffmpegOut cmd)))
      else
        processScenes w W H fps rest
          { st1 with events := st1.events ++ [Event.encodeSeg p.1],
                     seg_files := st1.seg_files ++ [p.1] }

/-- App.py lines 122-170: segment-count check, list file, concat, mux, upload
configuration check, upload, success response. -/
def afterSegments (w : World) (W H fps : Int) (st : RunState) :
    RunState × HttpResponse :=
  if st.seg_files = [] then
    (st, { code := 400, status := "error", error := some ("No se generaron segmentos") })
  else
    let st := { st with list_written := true }
    let ccmd := cmd_concat (pathOf ScratchFile.listFile) (pathOf ScratchFile.concatFile)
    if w.ffmpegOk ccmd = false then
      (st, excResp (PyExc.calledProcess (w.ffmpegOut ccmd)))
    else
      let st := { st with events := st.events ++ [Event.concatStep], concat_done := true }
      if w.ffmpegOk mux_cmd = false then
        (st, excResp (PyExc.calledProcess (w.ffmpegOut mux_cmd)))
      else
        let st := { st with events := st.events ++ [Event.muxStep], mux_done := true }
        if w.cloudinary_url = "" then
          (st, { code := 500, status := "error",
                 error := some ("CLOUDINARY_URL no configurado") })
        else if w.uploadOk = false then
          (st, excResp (PyExc.other w.uploadErr))
        else
          let st := { st with events := st.events ++ [Event.uploadStep] }
          (st, { code := 200, status := "ok", video_url := some w.secure_url,
                 meta := some { w := W, h := H, fps := fps,
                                scenes := st.seg_files.length } })

/-- The finally block's deletion loop: walk the candidate sequence, remove a
file when it still exists; the first failed removal raises and the swallowing
`except` abandons the rest of the loop.  Returns the files removed. -/
def runCleanup (w : World) (created : List ScratchFile) :
    List ScratchFile → List ScratchFile → List ScratchFile
  | [], removed => removed
  | f :: rest, removed =>
    if f ∈ created ∧ f ∉ removed then
      if w.removeOk f then runCleanup w created rest (removed ++ [f])
      else removed
    else runCleanup w created rest removed

/-- The scratch files still on disk after the finally block. -/
def finallyCleanup (w : World) (st : RunState) : List ScratchFile :=
  st.created.filter fun f =>
    !(decide (f ∈ runCleanup w st.created st.cleanupCandidates []))

/-- The full observable outcome of one /render request. -/
structure RenderOutcome where
  response : HttpResponse
  state : RunState
  remaining : List ScratchFile

/-- Packaging of the pipeline tail: either the scene loop escaped with an
exception (handled by the except clauses), or the remaining stages run; both
paths go through the finally cleanup. -/
def renderWith (w : World) (W H fps : Int) (res : RunState × Option PyExc) :
    RenderOutcome :=
  match res with
  | (st, some exc) =>
    { response := excResp exc, state := st, remaining := finallyCleanup w st }
  | (st, none) =>
    let r := afterSegments w W H fps st
    { response := r.2, state := r.1, remaining := finallyCleanup w r.1 }

/-- The /render handler, app.py lines 54-189.  The two validation rejections
return before the try block, so no scratch file exists and no cleanup runs;
every later exit point runs the finally cleanup. -/
def render (w : World) (data : RenderRequest) : RenderOutcome :=
  let W := data.size_w.getD 1280
  let H := data.size_h.getD 720
  let fps := data.fps.getD 24
  let audio_url := clean_url data.audio_url
  let scenes := data.scenes.getD []
  if scenes = [] then
    { response := { code := 400, status := "error", error := some ("scenes vacío") },
      state := {}, remaining := [] }
  else if audio_url = "" then
    { response := { code := 400, status := "error", error := some ("audio_url vacío") },
      state := {}, remaining := [] }
  else if w.fetchOk audio_url = false then
    let st : RunState := {}
    { response := excResp (PyExc.other (w.fetchErr audio_url)),
      state := st, remaining := finallyCleanup w st }
  else
    let st0 : RunState := { events := [Event.fetchAudio audio_url], local_audio := true }
    renderWith w W H fps (processScenes w W H fps (List.enumFrom 1 scenes) st0)

/-- Value of a hexadecimal digit character. -/
def hexDigit (c : Char) : Option Nat :=
  if 48 ≤ c.toNat ∧ c.toNat ≤ 57 then some (c.toNat - 48)
  else if 65 ≤ c.toNat ∧ c.toNat ≤ 70 then some (c.toNat - 55)
  else if 97 ≤ c.toNat ∧ c.toNat ≤ 102 then some (c.toNat - 87)
  else none

/-- The percent character (code point 37). -/
def pctChar : Char := Char.ofNat 37

/-- Modelled from the spec: percent-decoding of an escaped URL (the
`unquote` step the spec describes, which `clean_url` in the source does not
perform).  Malformed escapes are left as-is. -/
def percentDecode : List Char → List Char
  | [] => []
  | [c] => [c]
  | [c, d] => [c, d]
  | c :: a :: b :: rest =>
    if c = pctChar then
      match hexDigit a, hexDigit b with
      | some x, some y => Char.ofNat (16 * x + y) :: percentDecode rest
      | _, _ => c :: percentDecode (a :: b :: rest)
    else c :: percentDecode (a :: b :: rest)

/-- Hexadecimal digit character for a value below 16. -/
def hexChar (n : Nat) : Char :=
  if n < 10 then Char.ofNat (48 + n) else Char.ofNat (55 + n)

/-- Modelled from the spec: re-escaping of internal whitespace (each
whitespace character becomes a percent escape of its code point). -/
def escapeWs (l : List Char) : List Char :=
  l.foldr (fun c acc =>
    if c.isWhitespace then
      pctChar :: hexChar (c.toNat / 16) :: hexChar (c.toNat % 16) :: acc
    else c :: acc) []

/-- Modelled from the spec: the URL normalization the spec claims the code
performs — strip surrounding quote characters, percent-decode, then
re-escape internal whitespace. -/
def spec_normalize_url (u : String) : String :=
  ⟨escapeWs (percentDecode (stripMatchingQuotes (pyStrip u.data)))⟩

/-! ### The mux invocation and the modelled duration semantics -/

/-- The argument following a flag in an argument vector, if any. -/
def flagValue (cmd : List String) (flag : String) : Option String :=
  match cmd.dropWhile (fun a => a != flag) with
  | _ :: v :: _ => some v
  | _ => none

/-- Modelled from the spec: the duration of the mux output produced by the
external encoder — with the shortest-stream flag the output stops at the
shorter input stream, otherwise it spans the longer one. -/
def ffmpegMuxDuration (shortestFlag : Bool) (videoDur audioDur : ℚ) : ℚ :=
  if shortestFlag then min videoDur audioDur else max videoDur audioDur


/-- Download events (audio or image). -/
def isFetchEvent : Event → Bool
  | Event.fetchAudio _ => true
  | Event.fetchImage _ _ => true
  | _ => false

/-- Segment-encode events. -/
def isEncodeEvent : Event → Bool
  | Event.encodeSeg _ => true
  | _ => false

/-- The phase discipline asserted by the spec state machine: in the event
sequence, no download happens after an encode (Fetching completes before
Encoding begins). -/
def fetchPhaseBeforeEncodes (evs : List Event) : Bool :=
  !(evs.tails.any fun t =>
      match t with
      | e :: rest => isEncodeEvent e && rest.any isFetchEvent
      | [] => false)

/-- A world in which every external collaborator succeeds. -/
def wOk : World :=
  { fetchOk := fun _ => true, fetchErr := fun _ => "fetch failed",
    ffmpegOk := fun _ => true, ffmpegOut := fun _ => "ffmpeg error",
    cloudinary_url := "cloudinary://key", uploadOk := true,
    secure_url := "https://res.cloudinary.com/demo/video.mp4",
    uploadErr := "upload failed",
    removeOk := fun _ => true }

/-- A world in which every download fails. -/
def wFetchFail : World := { wOk with fetchOk := fun _ => false }

/-- A world in which only the deletion of the audio scratch file fails. -/
def wAudioRemoveFail : World :=
  { wOk with removeOk := fun f => !(decide (f = ScratchFile.audio)) }

/-- A world in which every ffmpeg invocation fails (so the first one to run —
a segment encode — raises `CalledProcessError`). -/
def wFfmpegFail : World := { wOk with ffmpegOk := fun _ => false }

/-- A world in which exactly the concat invocation fails.  The three command
vectors have pairwise distinct lengths (19, 11 and 14 arguments), so the
length identifies the step. -/
def wConcatFail : World :=
  { wOk with ffmpegOk := fun c => !(decide (c.length = 11)) }

/-- A world in which exactly the mux invocation fails. -/
def wMuxFail : World :=
  { wOk with ffmpegOk := fun c => !(decide (c.length = 14)) }

/-- A world in which only the upload fails. -/
def wUploadFail : World := { wOk with uploadOk := false }

/-- A valid scene. -/
def scene1 : SceneJson :=
  { image_url := some ("https://imgs.example/1.jpg"), seconds := some 6 }

/-- A second valid scene. -/
def scene2 : SceneJson :=
  { image_url := some ("https://imgs.example/2.jpg"), seconds := some 6 }

/-- An invalid scene (empty image URL), which the loop skips. -/
def sceneBad : SceneJson := { image_url := some (""), seconds := some 3 }

/-- A request with two valid scenes. -/
def reqTwo : RenderRequest :=
  { audio_url := some ("https://audio.example/a.mp3"),
    scenes := some [scene1, scene2] }

/-- A request with two valid scenes and one invalid scene between them. -/
def reqMixed : RenderRequest :=
  { audio_url := some ("https://audio.example/a.mp3"),
    scenes := some [scene1, sceneBad, scene2] }

/-- A request whose only scene is invalid. -/
def reqAllBad : RenderRequest :=
  { audio_url := some ("https://audio.example/a.mp3"),
    scenes := some [sceneBad] }

/-- A request with a missing (null/absent) audio URL. -/
def reqNoAudio : RenderRequest :=
  { audio_url := none, scenes := some [scene1] }


/-! ### Loop characterizations -/

/-- The events contributed by the scene loop for the non-skipped scenes, in
input order: each image download immediately followed by that scene's
encode. -/
def validEvents : List (Nat × SceneJson) → List Event
  | [] => []
  | p :: l =>
    if sceneSkipped p.2 then validEvents l
    else Event.fetchImage p.1 (sceneUrl p.2) :: Event.encodeSeg p.1 :: validEvents l

/-- The indices of the non-skipped scenes, in input order. -/
def validIds : List (Nat × SceneJson) → List Nat
  | [] => []
  | p :: l => if sceneSkipped p.2 then validIds l else p.1 :: validIds l

theorem validIds_length_enumFrom (scenes : List SceneJson) :
    ∀ n : Nat, (validIds (List.enumFrom n scenes)).length = validSceneCount scenes := by
  induction scenes with
  | nil => intro n; simp [validIds, validSceneCount]
  | cons s l ih =>
    intro n
    by_cases hs : sceneSkipped s
    · simp [List.enumFrom, validIds, hs, validSceneCount, List.filter_cons, ih]
    · simp [List.enumFrom, validIds, hs, validSceneCount, List.filter_cons, ih]

theorem processScenes_allOk (w : World) (W H fps : Int)
    (hfetch : ∀ u, w.fetchOk u = true) (hff : ∀ c, w.ffmpegOk c = true) :
    ∀ (l : List (Nat × SceneJson)) (st : RunState),
      processScenes w W H fps l st =
        ({ st with events := st.events ++ validEvents l,
                   local_imgs := st.local_imgs ++ validIds l,
                   seg_files := st.seg_files ++ validIds l }, none) := by
  intro l
  induction l with
  | nil => intro st; simp [processScenes, validEvents, validIds]
  | cons p l ih =>
    intro st
    obtain ⟨ev, la, li, sf, lw, cd, md⟩ := st
    by_cases hs : sceneSkipped p.2
    · simp [processScenes, hs, validEvents, validIds, ih]
    · simp [processScenes, hs, hfetch, hff, validEvents, validIds, ih]

theorem processScenes_none (w : World) (W H fps : Int) :
    ∀ (l : List (Nat × SceneJson)) (st st' : RunState),
      processScenes w W H fps l st = (st', none) →
      st' = { st with events := st.events ++ validEvents l,
                      local_imgs := st.local_imgs ++ validIds l,
                      seg_files := st.seg_files ++ validIds l } := by
  intro l
  induction l with
  | nil =>
    intro st st' h
    simp [processScenes] at h
    simp [← h, validEvents, validIds]
  | cons p l ih =>
    intro st st' h
    by_cases hs : sceneSkipped p.2
    · have := ih st st' (by simpa [processScenes, hs] using h)
      obtain ⟨ev, la, li, sf, lw, cd, md⟩ := st
      simp [validEvents, validIds, hs, this]
    · by_cases hf : w.fetchOk (sceneUrl p.2) = false
      · simp [processScenes, hs, hf] at h
      · by_cases he : w.ffmpegOk (cmd_seg (sceneSecs p.2) fps
            (pathOf (ScratchFile.image p.1)) (vf_filter W H)
            (pathOf (ScratchFile.segment p.1))) = false
        · simp [processScenes, hs, hf, he] at h
        · have h' := ih _ st' (by simpa [processScenes, hs, hf, he] using h)
          obtain ⟨ev, la, li, sf, lw, cd, md⟩ := st
          simp [validEvents, validIds, hs, h']

theorem processScenes_allSkipped (w : World) (W H fps : Int) :
    ∀ (l : List (Nat × SceneJson)) (st : RunState),
      (∀ p ∈ l, sceneSkipped p.2) →
      processScenes w W H fps l st = (st, none) := by
  intro l
  induction l with
  | nil => intro st _; simp [processScenes]
  | cons p l ih =>
    intro st hall
    have hs : sceneSkipped p.2 := hall p (by simp)
    simp [processScenes, hs]
    exact ih st (fun q hq => hall q (by simp [hq]))

theorem processScenes_removeOk (w : World) (r : ScratchFile → Bool) (W H fps : Int) :
    ∀ (l : List (Nat × SceneJson)) (st : RunState),
      processScenes { w with removeOk := r } W H fps l st =
      processScenes w W H fps l st := by
  intro l
  induction l with
  | nil => intro st; simp [processScenes]
  | cons p l ih =>
    intro st
    by_cases hs : sceneSkipped p.2
    · simp [processScenes, hs, ih]
    · simp only [processScenes, hs, if_false, ite_false]
      simp [ih]

/-! ### Response and mux-stage characterizations -/

theorem excResp_code (e : PyExc) : (excResp e).code = 500 := by
  cases e <;> rfl

theorem excResp_stage (e : PyExc) :
    (excResp e).stage = none ∨ (excResp e).stage = some ("ffmpeg") := by
  cases e <;> simp [excResp]

theorem afterSegments_stage (w : World) (W H fps : Int) (st : RunState) :
    (afterSegments w W H fps st).2.stage = none ∨
    ((afterSegments w W H fps st).2.stage = some ("ffmpeg") ∧
     (afterSegments w W H fps st).2.code = 500) := by
  by_cases h1 : st.seg_files = []
  · simp [afterSegments, h1]
  · by_cases h2 : w.ffmpegOk (cmd_concat (pathOf ScratchFile.listFile)
        (pathOf ScratchFile.concatFile)) = false
    · simp [afterSegments, h1, h2, excResp]
    · by_cases h3 : w.ffmpegOk mux_cmd = false
      · simp [afterSegments, h1, h2, h3, excResp]
      · by_cases h4 : w.cloudinary_url = ""
        · simp [afterSegments, h1, h2, h3, h4]
        · by_cases h5 : w.uploadOk = false
          · simp [afterSegments, h1, h2, h3, h4, h5, excResp]
          · simp [afterSegments, h1, h2, h3, h4, h5]

theorem afterSegments_code200 (w : World) (W H fps : Int) (st : RunState)
    (h : (afterSegments w W H fps st).2.code = 200) :
    st.seg_files ≠ [] ∧
    (afterSegments w W H fps st).1 =
      { st with
          events := st.events ++ [Event.concatStep, Event.muxStep, Event.uploadStep],
          list_written := true, concat_done := true, mux_done := true } ∧
    (afterSegments w W H fps st).2 =
      { code := 200, status := "ok", video_url := some w.secure_url,
        meta := some { w := W, h := H, fps := fps, scenes := st.seg_files.length } } := by
  by_cases h1 : st.seg_files = []
  · simp [afterSegments, h1] at h
  · by_cases h2 : w.ffmpegOk (cmd_concat (pathOf ScratchFile.listFile)
        (pathOf ScratchFile.concatFile)) = false
    · simp [afterSegments, h1, h2, excResp_code] at h
    · by_cases h3 : w.ffmpegOk mux_cmd = false
      · simp [afterSegments, h1, h2, h3, excResp_code] at h
      · by_cases h4 : w.cloudinary_url = ""
        · simp [afterSegments, h1, h2, h3, h4] at h
        · by_cases h5 : w.uploadOk = false
          · simp [afterSegments, h1, h2, h3, h4, h5, excResp_code] at h
          · obtain ⟨ev, la, li, sf, lw, cd, md⟩ := st
            refine ⟨h1, ?_, ?_⟩ <;>
              simp [afterSegments, h1, h2, h3, h4, h5]

theorem afterSegments_allOk (w : World) (W H fps : Int) (st : RunState)
    (hff : ∀ c, w.ffmpegOk c = true) (hcl : w.cloudinary_url ≠ "")
    (hup : w.uploadOk = true) (hseg : st.seg_files ≠ []) :
    (afterSegments w W H fps st).2.code = 200 := by
  simp [afterSegments, hseg, hff, hcl, hup]

theorem afterSegments_removeOk (w : World) (r : ScratchFile → Bool)
    (W H fps : Int) (st : RunState) :
    afterSegments { w with removeOk := r } W H fps st = afterSegments w W H fps st := by
  simp [afterSegments]

/-! ### Handler-level characterizations -/

theorem render_eq (w : World) (data : RenderRequest) :
    render w data =
      if data.scenes.getD [] = [] then
        { response := { code := 400, status := "error", error := some ("scenes vacío") },
          state := {}, remaining := [] }
      else if clean_url data.audio_url = "" then
        { response := { code := 400, status := "error", error := some ("audio_url vacío") },
          state := {}, remaining := [] }
      else if w.fetchOk (clean_url data.audio_url) = false then
        { response := excResp (PyExc.other (w.fetchErr (clean_url data.audio_url))),
          state := {}, remaining := finallyCleanup w {} }
      else
        renderWith w (data.size_w.getD 1280) (data.size_h.getD 720) (data.fps.getD 24)
          (processScenes w (data.size_w.getD 1280) (data.size_h.getD 720)
            (data.fps.getD 24) (List.enumFrom 1 (data.scenes.getD []))
            { events := [Event.fetchAudio (clean_url data.audio_url)],
              local_audio := true }) := rfl

theorem renderWith_stage (w : World) (W H fps : Int) (res : RunState × Option PyExc) :
    (renderWith w W H fps res).response.stage = none ∨
    ((renderWith w W H fps res).response.stage = some ("ffmpeg") ∧
     (renderWith w W H fps res).response.code = 500) := by
  rcases res with ⟨st, oexc⟩
  cases oexc with
  | none => simpa [renderWith] using afterSegments_stage w W H fps st
  | some exc => cases exc <;> simp [renderWith, excResp]

theorem renderWith_code200 (w : World) (W H fps : Int) (res : RunState × Option PyExc)
    (h : (renderWith w W H fps res).response.code = 200) :
    res.2 = none ∧ res.1.seg_files ≠ [] ∧
    (renderWith w W H fps res).state =
      { res.1 with
          events := res.1.events ++ [Event.concatStep, Event.muxStep, Event.uploadStep],
          list_written := true, concat_done := true, mux_done := true } ∧
    (renderWith w W H fps res).response =
      { code := 200, status := "ok", video_url := some w.secure_url,
        meta := some { w := W, h := H, fps := fps,
                       scenes := res.1.seg_files.length } } := by
  rcases res with ⟨st, oexc⟩
  cases oexc with
  | some exc => simp [renderWith, excResp_code] at h
  | none =>
    have h' : (afterSegments w W H fps st).2.code = 200 := by
      simpa [renderWith] using h
    obtain ⟨hseg, hst, hresp⟩ := afterSegments_code200 w W H fps st h'
    exact ⟨rfl, hseg, by simpa [renderWith] using hst, by simpa [renderWith] using hresp⟩

theorem renderWith_remaining (w : World) (W H fps : Int) (res : RunState × Option PyExc) :
    (renderWith w W H fps res).remaining =
    finallyCleanup w (renderWith w W H fps res).state := by
  rcases res with ⟨st, oexc⟩
  cases oexc <;> rfl

theorem render_stage (w : World) (data : RenderRequest) :
    (render w data).response.stage = none ∨
    ((render w data).response.stage = some ("ffmpeg") ∧
     (render w data).response.code = 500) := by
  rw [render_eq]
  split_ifs with h1 h2 h3
  · simp
  · simp
  · simp [excResp]
  · exact renderWith_stage w _ _ _ _

theorem render_remaining (w : World) (data : RenderRequest) :
    (render w data).remaining = finallyCleanup w (render w data).state := by
  rw [render_eq]
  split_ifs with h1 h2 h3
  · rfl
  · rfl
  · rfl
  · exact renderWith_remaining w _ _ _ _

theorem render_code200 (w : World) (data : RenderRequest)
    (h : (render w data).response.code = 200) :
    (render w data).state =
      { events := Event.fetchAudio (clean_url data.audio_url) ::
          (validEvents (List.enumFrom 1 (data.scenes.getD [])) ++
            [Event.concatStep, Event.muxStep, Event.uploadStep]),
        local_audio := true,
        local_imgs := validIds (List.enumFrom 1 (data.scenes.getD [])),
        seg_files := validIds (List.enumFrom 1 (data.scenes.getD [])),
        list_written := true, concat_done := true, mux_done := true } ∧
    (render w data).response =
      { code := 200, status := "ok", video_url := some w.secure_url,
        meta := some { w := data.size_w.getD 1280, h := data.size_h.getD 720,
                       fps := data.fps.getD 24,
                       scenes := (validIds (List.enumFrom 1
                         (data.scenes.getD []))).length } } := by
  rw [render_eq] at h ⊢
  split_ifs at h ⊢ with h1 h2 h3
  · simp at h
  · simp at h
  · simp [excResp] at h
  · obtain ⟨hnone, hseg, hstate, hresp⟩ := renderWith_code200 w _ _ _ _ h
    have hp := processScenes_none w (data.size_w.getD 1280) (data.size_h.getD 720)
      (data.fps.getD 24) (List.enumFrom 1 (data.scenes.getD []))
      { events := [Event.fetchAudio (clean_url data.audio_url)], local_audio := true }
      _ (by rw [← hnone])
    rw [hstate, hresp, hp]
    constructor
    · simp
    · simp

theorem render_allOk_code (w : World) (data : RenderRequest) (hw : w.allOk)
    (h1 : data.scenes.getD [] ≠ []) (h2 : clean_url data.audio_url ≠ "")
    (h3 : validSceneCount (data.scenes.getD []) ≠ 0) :
    (render w data).response.code = 200 := by
  obtain ⟨hfetch, hff, hcl, hup⟩ := hw
  have hids : validIds (List.enumFrom 1 (data.scenes.getD [])) ≠ [] := by
    intro hnil
    apply h3
    rw [← validIds_length_enumFrom (data.scenes.getD []) 1, hnil]
    rfl
  rw [render_eq, if_neg h1, if_neg h2, if_neg (by simp [hfetch])]
  rw [processScenes_allOk w _ _ _ hfetch hff]
  simpa [renderWith] using
    afterSegments_allOk w (data.size_w.getD 1280) (data.size_h.getD 720)
      (data.fps.getD 24) _ hff hcl hup (by simpa using hids)

/-! ### Cleanup characterizations -/

theorem mem_ite_nil {α : Type} (b : Prop) [Decidable b] (x g : α) :
    g ∈ (if b then [x] else []) ↔ b ∧ g = x := by
  split <;> simp_all

theorem runCleanup_mem (w : World) (created : List ScratchFile)
    (hok : ∀ f, w.removeOk f = true) :
    ∀ (cands removed : List ScratchFile) (g : ScratchFile),
      g ∈ runCleanup w created cands removed ↔
        g ∈ removed ∨ (g ∈ cands ∧ g ∈ created) := by
  intro cands
  induction cands with
  | nil => intro removed g; simp [runCleanup]
  | cons f rest ih =>
    intro removed g
    by_cases hc : f ∈ created ∧ f ∉ removed
    · rw [runCleanup, if_pos hc, if_pos (hok f), ih]
      simp only [List.mem_append, List.mem_cons, List.not_mem_nil, or_false]
      constructor
      · rintro ((h | rfl) | ⟨h, h'⟩)
        · exact Or.inl h
        · exact Or.inr ⟨Or.inl rfl, hc.1⟩
        · exact Or.inr ⟨Or.inr h, h'⟩
      · rintro (h | ⟨(rfl | h), h'⟩)
        · exact Or.inl (Or.inl h)
        · exact Or.inl (Or.inr rfl)
        · exact Or.inr ⟨h, h'⟩
    · rw [runCleanup, if_neg hc, ih]
      constructor
      · rintro (h | ⟨h, h'⟩)
        · exact Or.inl h
        · exact Or.inr ⟨List.mem_cons_of_mem f h, h'⟩
      · rintro (h | ⟨h, h'⟩)
        · exact Or.inl h
        · rcases List.mem_cons.mp h with rfl | h
          · rcases not_and_or.mp hc with hc1 | hc2
            · exact absurd h' hc1
            · exact Or.inl (not_not.mp hc2)
          · exact Or.inr ⟨h, h'⟩

theorem listFile_not_mem_candidates (st : RunState) :
    ScratchFile.listFile ∉ st.cleanupCandidates := by
  simp [RunState.cleanupCandidates, mem_ite_nil]

theorem created_mem_candidates (st : RunState) (f : ScratchFile)
    (hf : f ∈ st.created) (hne : f ≠ ScratchFile.listFile) :
    f ∈ st.cleanupCandidates := by
  simp only [RunState.created, List.mem_append, mem_ite_nil] at hf
  simp only [RunState.cleanupCandidates, List.mem_append, mem_ite_nil,
    List.mem_cons, List.not_mem_nil, or_false]
  rcases hf with ((((⟨hb, rfl⟩ | h) | h) | ⟨hb, rfl⟩) | ⟨hb, rfl⟩) | ⟨hb, rfl⟩
  · exact Or.inl (Or.inl ⟨hb, rfl⟩)
  · exact Or.inl (Or.inr (Or.inl h))
  · exact Or.inl (Or.inr (Or.inr h))
  · exact absurd rfl hne
  · exact Or.inr (Or.inl rfl)
  · exact Or.inr (Or.inr rfl)

theorem finallyCleanup_allRemovable (w : World) (st : RunState)
    (hok : ∀ f, w.removeOk f = true) :
    finallyCleanup w st =
      st.created.filter fun f => decide (f = ScratchFile.listFile) := by
  unfold finallyCleanup
  apply List.filter_congr
  intro f hf
  have h1 := runCleanup_mem w st.created hok st.cleanupCandidates [] f
  by_cases hL : f = ScratchFile.listFile
  · subst hL
    have : ScratchFile.listFile ∉
        runCleanup w st.created st.cleanupCandidates [] := by
      rw [h1]
      simp [listFile_not_mem_candidates st]
    simp [this]
  · have : f ∈ runCleanup w st.created st.cleanupCandidates [] := by
      rw [h1]
      exact Or.inr ⟨created_mem_candidates st f hf hL, hf⟩
    simp [this, hL]

/-! ### The response does not depend on the deletion oracle -/

theorem renderWith_removeOk_resp (w : World) (r : ScratchFile → Bool) (W H fps : Int)
    (res : RunState × Option PyExc) :
    (renderWith { w with removeOk := r } W H fps res).response =
      (renderWith w W H fps res).response := by
  rcases res with ⟨st, oexc⟩
  cases oexc with
  | some exc => rfl
  | none => simp [renderWith, afterSegments_removeOk]

theorem renderWith_removeOk_state (w : World) (r : ScratchFile → Bool) (W H fps : Int)
    (res : RunState × Option PyExc) :
    (renderWith { w with removeOk := r } W H fps res).state =
      (renderWith w W H fps res).state := by
  rcases res with ⟨st, oexc⟩
  cases oexc with
  | some exc => rfl
  | none => simp [renderWith, afterSegments_removeOk]

theorem render_removeOk (w : World) (r : ScratchFile → Bool) (data : RenderRequest) :
    ((render { w with removeOk := r } data).response = (render w data).response) ∧
    ((render { w with removeOk := r } data).state = (render w data).state) := by
  rw [render_eq, render_eq]
  by_cases h1 : data.scenes.getD [] = []
  · rw [if_pos h1, if_pos h1]; exact ⟨rfl, rfl⟩
  · rw [if_neg h1, if_neg h1]
    by_cases h2 : clean_url data.audio_url = ""
    · rw [if_pos h2, if_pos h2]; exact ⟨rfl, rfl⟩
    · rw [if_neg h2, if_neg h2]
      by_cases h3 : w.fetchOk (clean_url data.audio_url) = false
      · have h3' : ({ w with removeOk := r }).fetchOk (clean_url data.audio_url)
            = false := h3
        rw [if_pos h3, if_pos h3']
        exact ⟨rfl, rfl⟩
      · have h3' : ¬ ({ w with removeOk := r }).fetchOk (clean_url data.audio_url)
            = false := h3
        rw [if_neg h3, if_neg h3']
        rw [processScenes_removeOk w r]
        exact ⟨renderWith_removeOk_resp w r _ _ _ _,
               renderWith_removeOk_state w r _ _ _ _⟩

/-! ### URL normalization: what the code does vs. what the spec describes -/

theorem pyStrip_sub (l : List Char) : pyStrip l <:+: l := by
  unfold pyStrip
  have hs : (l.dropWhile Char.isWhitespace) <:+ l := List.dropWhile_suffix _
  have hp : ((l.dropWhile Char.isWhitespace).reverse.dropWhile
      Char.isWhitespace).reverse <+: (l.dropWhile Char.isWhitespace) := by
    have h := List.reverse_prefix.mpr
      (List.dropWhile_suffix (l := (l.dropWhile Char.isWhitespace).reverse)
        Char.isWhitespace)
    rwa [List.reverse_reverse] at h
  exact hp.isInfix.trans hs.isInfix

theorem stripMatchingQuotes_sub (l : List Char) : stripMatchingQuotes l <:+: l := by
  unfold stripMatchingQuotes
  split
  · exact (List.dropLast_prefix (l.drop 1)).isInfix.trans
      (List.drop_suffix 1 l).isInfix
  · exact List.infix_refl l

/-- The characters of the normalized URL form a contiguous substring of the
input: the code rewrites nothing inside the URL. -/
theorem clean_url_substring (u : String) : (clean_url (some u)).data <:+: u.data := by
  show stripMatchingQuotes (pyStrip u.data) <:+: u.data
  exact (stripMatchingQuotes_sub (pyStrip u.data)).trans (pyStrip_sub u.data)

theorem pyStrip_eq_self (l : List Char)
    (h1 : ∀ c, l.head? = some c → c.isWhitespace = false)
    (h2 : ∀ c, l.getLast? = some c → c.isWhitespace = false) :
    pyStrip l = l := by
  unfold pyStrip
  have e1 : l.dropWhile Char.isWhitespace = l := by
    cases l with
    | nil => rfl
    | cons c t =>
      rw [List.dropWhile_cons, if_neg (by simp [h1 c rfl])]
  rw [e1]
  have e2 : l.reverse.dropWhile Char.isWhitespace = l.reverse := by
    cases hr : l.reverse with
    | nil => rfl
    | cons c t =>
      have hc : l.getLast? = some c := by
        rw [← List.head?_reverse, hr]; rfl
      rw [List.dropWhile_cons, if_neg (by simp [h2 c hc])]
  rw [e2, List.reverse_reverse]

/-- On an input with no surrounding whitespace and no leading quote
character, `clean_url` is the identity. -/
theorem clean_url_plain (u : String)
    (h1 : ∀ c, u.data.head? = some c →
      c.isWhitespace = false ∧ c ≠ dquote ∧ c ≠ squote)
    (h2 : ∀ c, u.data.getLast? = some c → c.isWhitespace = false) :
    clean_url (some u) = u := by
  show (⟨stripMatchingQuotes (pyStrip u.data)⟩ : String) = u
  rw [pyStrip_eq_self u.data (fun c hc => (h1 c hc).1) h2]
  unfold stripMatchingQuotes
  rw [if_neg ?hnc]
  case hnc =>
    rintro (⟨ha, _⟩ | ⟨ha, _⟩)
    · exact (h1 dquote ha).2.1 rfl
    · exact (h1 squote ha).2.2 rfl

/-! ### Auxiliary facts for the validation paths -/

theorem snd_mem_of_mem_enumFrom {α : Type} :
    ∀ (l : List α) (n : Nat) (p : Nat × α), p ∈ List.enumFrom n l → p.2 ∈ l := by
  intro l
  induction l with
  | nil => intro n p h; simp [List.enumFrom] at h
  | cons a t ih =>
    intro n p h
    rw [List.enumFrom] at h
    rcases List.mem_cons.mp h with rfl | h
    · simp
    · exact List.mem_cons_of_mem a (ih (n + 1) p h)

theorem validSceneCount_zero (scenes : List SceneJson)
    (h : validSceneCount scenes = 0) :
    ∀ s ∈ scenes, sceneSkipped s := by
  intro s hs
  have h' := (List.filter_eq_nil_iff.mp (List.length_eq_zero.mp h)) s hs
  by_contra hns
  exact h' (by simp [hns])

theorem exists_valid_of_validIds_ne_nil :
    ∀ l : List (Nat × SceneJson), validIds l ≠ [] →
      ∃ p ∈ l, ¬ sceneSkipped p.2 := by
  intro l
  induction l with
  | nil => intro h; simp [validIds] at h
  | cons p l ih =>
    intro h
    by_cases hs : sceneSkipped p.2
    · rcases ih (by simpa [validIds, hs] using h) with ⟨q, hq, hnq⟩
      exact ⟨q, List.mem_cons_of_mem p hq, hnq⟩
    · exact ⟨p, List.mem_cons_self p l, hs⟩

/-- Like `processScenes_allOk`, but only the segment-encode invocations need
to succeed (later ffmpeg invocations may still fail). -/
theorem processScenes_segOk (w : World) (W H fps : Int)
    (hfetch : ∀ u, w.fetchOk u = true)
    (hff : ∀ (s : SceneJson) (i : Nat),
      w.ffmpegOk (cmd_seg (sceneSecs s) fps (pathOf (ScratchFile.image i))
        (vf_filter W H) (pathOf (ScratchFile.segment i))) = true) :
    ∀ (l : List (Nat × SceneJson)) (st : RunState),
      processScenes w W H fps l st =
        ({ st with events := st.events ++ validEvents l,
                   local_imgs := st.local_imgs ++ validIds l,
                   seg_files := st.seg_files ++ validIds l }, none) := by
  intro l
  induction l with
  | nil => intro st; simp [processScenes, validEvents, validIds]
  | cons p l ih =>
    intro st
    obtain ⟨ev, la, li, sf, lw, cd, md⟩ := st
    by_cases hs : sceneSkipped p.2
    · simp [processScenes, hs, validEvents, validIds, ih]
    · simp [processScenes, hs, hfetch, hff p.2 p.1, validEvents, validIds, ih]

/-- When all downloads succeed but every ffmpeg invocation fails, the scene
loop of a request with at least one valid scene escapes with a
`CalledProcessError`. -/
theorem processScenes_encodeFail (w : World) (W H fps : Int)
    (hfetch : ∀ u, w.fetchOk u = true) (hff : ∀ c, w.ffmpegOk c = false) :
    ∀ (l : List (Nat × SceneJson)) (st : RunState),
      (∃ p ∈ l, ¬ sceneSkipped p.2) →
      ∃ st' out,
        processScenes w W H fps l st = (st', some (PyExc.calledProcess out)) := by
  intro l
  induction l with
  | nil => intro st h; simp at h
  | cons p l ih =>
    intro st h
    by_cases hs : sceneSkipped p.2
    · have h' : ∃ q ∈ l, ¬ sceneSkipped q.2 := by
        rcases h with ⟨q, hq, hnq⟩
        rcases List.mem_cons.mp hq with rfl | hq'
        · exact absurd hs hnq
        · exact ⟨q, hq', hnq⟩
      have he : processScenes w W H fps (p :: l) st =
          processScenes w W H fps l st := by
        simp [processScenes, hs]
      rw [he]
      exact ih st h'
    · exact ⟨{ st with
          events := st.events ++ [Event.fetchImage p.1 (sceneUrl p.2)],
          local_imgs := st.local_imgs ++ [p.1] },
        w.ffmpegOut (cmd_seg (sceneSecs p.2) fps (pathOf (ScratchFile.image p.1))
          (vf_filter W H) (pathOf (ScratchFile.segment p.1))),
        by simp [processScenes, hs, hfetch, hff]⟩

/-! ### Claim theorems -/

/-- C1 counterexample: a concrete successful request after which a scratch
file created during the request — the concat list file — is still on disk,
so not every scratch file was deleted when the request terminated. -/
theorem cleanup_list_file_survives :
    (render wOk reqTwo).response.code = 200 ∧
    ScratchFile.listFile ∈ (render wOk reqTwo).state.created ∧
    (render wOk reqTwo).remaining = [ScratchFile.listFile] := by decide

/-- C1 (amended): after any request, provided every individual deletion
succeeds, every scratch file created during the request is deleted except
the concat list file, which the finally block never removes. -/
theorem cleanup_deletes_all_but_list_file (w : World) (data : RenderRequest)
    (hok : ∀ f, w.removeOk f = true) :
    (render w data).remaining =
      (render w data).state.created.filter
        (fun f => decide (f = ScratchFile.listFile)) := by
  rw [render_remaining]
  exact finallyCleanup_allRemovable w _ hok

/-- C1 witness: the amended cleanup claim at a concrete successful
two-scene render with all deletions succeeding. -/
theorem cleanup_deletes_all_but_list_file_witness :
    (render wOk reqTwo).remaining =
      (render wOk reqTwo).state.created.filter
        (fun f => decide (f = ScratchFile.listFile)) :=
  cleanup_deletes_all_but_list_file wOk reqTwo (fun _ => rfl)

/-- C2 counterexample: a failure originating past validation (at the fetch
stage) whose error response is a 500 without any stage field, contradicting
the claim that every such failure carries a stage tag from
fetch/encode/concat/mux/upload. -/
theorem error_stage_missing_for_fetch :
    (render wFetchFail reqTwo).response.code = 500 ∧
    (render wFetchFail reqTwo).response.stage = none := by decide

/-- C2 (amended): any stage field the service emits is the single
undifferentiated tag "ffmpeg" on a 500; an ffmpeg subprocess failure —
whether the failing invocation is a segment encode, the concat, or the mux
— does produce a 500 response carrying stage "ffmpeg" with the captured
output; and a fetch failure or an upload failure past validation yields a
500 response with no stage field, only an error message. -/
theorem error_stage_tag (w : World) (data : RenderRequest) :
    (∀ s, (render w data).response.stage = some s →
      s = "ffmpeg" ∧ (render w data).response.code = 500) ∧
    (data.scenes.getD [] ≠ [] → clean_url data.audio_url ≠ "" →
      w.fetchOk (clean_url data.audio_url) = false →
      (render w data).response =
        { code := 500, status := "error",
          error := some (w.fetchErr (clean_url data.audio_url)) }) ∧
    (data.scenes.getD [] ≠ [] → clean_url data.audio_url ≠ "" →
      validSceneCount (data.scenes.getD []) ≠ 0 →
      (∀ u, w.fetchOk u = true) →
      ((∀ c, w.ffmpegOk c = false) →
        ∃ out, (render w data).response =
          { code := 500, status := "error", stage := some ("ffmpeg"),
            stderr := some out }) ∧
      ((∀ (s : SceneJson) (i : Nat),
          w.ffmpegOk (cmd_seg (sceneSecs s) (data.fps.getD 24)
            (pathOf (ScratchFile.image i))
            (vf_filter (data.size_w.getD 1280) (data.size_h.getD 720))
            (pathOf (ScratchFile.segment i))) = true) →
        (w.ffmpegOk (cmd_concat (pathOf ScratchFile.listFile)
            (pathOf ScratchFile.concatFile)) = false →
          (render w data).response =
            { code := 500, status := "error", stage := some ("ffmpeg"),
              stderr := some (w.ffmpegOut (cmd_concat
                (pathOf ScratchFile.listFile)
                (pathOf ScratchFile.concatFile))) }) ∧
        (w.ffmpegOk (cmd_concat (pathOf ScratchFile.listFile)
            (pathOf ScratchFile.concatFile)) = true →
         w.ffmpegOk mux_cmd = false →
          (render w data).response =
            { code := 500, status := "error", stage := some ("ffmpeg"),
              stderr := some (w.ffmpegOut mux_cmd) })) ∧
      ((∀ c, w.ffmpegOk c = true) → w.cloudinary_url ≠ "" →
        w.uploadOk = false →
        (render w data).response =
          { code := 500, status := "error", error := some w.uploadErr })) := by
  refine ⟨?_, ?_, ?_⟩
  · intro s hs
    rcases render_stage w data with h | ⟨h1, h2⟩
    · rw [h] at hs; exact absurd hs (by simp)
    · rw [h1] at hs
      refine ⟨?_, h2⟩
      injection hs with h'
      exact h'.symm
  · intro h1 h2 h3
    rw [render_eq, if_neg h1, if_neg h2, if_pos h3]
    rfl
  · intro h1 h2 h3 hfetch
    have hids : validIds (List.enumFrom 1 (data.scenes.getD [])) ≠ [] := by
      intro hnil
      apply h3
      rw [← validIds_length_enumFrom (data.scenes.getD []) 1, hnil]
      rfl
    refine ⟨?_, fun hffseg => ⟨?_, ?_⟩, ?_⟩
    · intro hffneg
      obtain ⟨st', out, hp⟩ := processScenes_encodeFail w (data.size_w.getD 1280)
        (data.size_h.getD 720) (data.fps.getD 24) hfetch hffneg
        (List.enumFrom 1 (data.scenes.getD []))
        { events := [Event.fetchAudio (clean_url data.audio_url)],
          local_audio := true }
        (exists_valid_of_validIds_ne_nil _ hids)
      refine ⟨out, ?_⟩
      rw [render_eq, if_neg h1, if_neg h2, if_neg (by simp [hfetch]), hp]
      rfl
    · intro hcc
      rw [render_eq, if_neg h1, if_neg h2, if_neg (by simp [hfetch]),
        processScenes_segOk w (data.size_w.getD 1280) (data.size_h.getD 720)
          (data.fps.getD 24) hfetch hffseg]
      simp [renderWith, afterSegments, hids, hcc, excResp]
    · intro hconc hmux
      rw [render_eq, if_neg h1, if_neg h2, if_neg (by simp [hfetch]),
        processScenes_segOk w (data.size_w.getD 1280) (data.size_h.getD 720)
          (data.fps.getD 24) hfetch hffseg]
      simp [renderWith, afterSegments, hids, hconc, hmux, excResp]
    · intro hffall hcl hup
      rw [render_eq, if_neg h1, if_neg h2, if_neg (by simp [hfetch]),
        processScenes_allOk w (data.size_w.getD 1280) (data.size_h.getD 720)
          (data.fps.getD 24) hfetch hffall]
      simp [renderWith, afterSegments, hids, hffall, hcl, hup, excResp]

/-- C2 witness: the amended claim at concrete requests whose audio download
fails (500 without stage), whose segment encode fails, whose concat fails,
whose mux fails (500 with stage "ffmpeg" each time), and whose upload fails
(500 without stage). -/
theorem error_stage_tag_witness :
    ((render wFetchFail reqTwo).response =
      { code := 500, status := "error", error := some ("fetch failed") }) ∧
    ((render wFfmpegFail reqTwo).response.stage = some ("ffmpeg") ∧
     (render wFfmpegFail reqTwo).response.code = 500) ∧
    ((render wConcatFail reqTwo).response =
      { code := 500, status := "error", stage := some ("ffmpeg"),
        stderr := some ("ffmpeg error") }) ∧
    ((render wMuxFail reqTwo).response =
      { code := 500, status := "error", stage := some ("ffmpeg"),
        stderr := some ("ffmpeg error") }) ∧
    ((render wUploadFail reqTwo).response =
      { code := 500, status := "error", error := some ("upload failed") }) := by
  refine ⟨?_, ?_, ?_, ?_, ?_⟩
  · exact (error_stage_tag wFetchFail reqTwo).2.1 (by decide) (by decide) rfl
  · obtain ⟨out, hout⟩ := ((error_stage_tag wFfmpegFail reqTwo).2.2 (by decide)
      (by decide) (by decide) (fun _ => rfl)).1 (fun _ => rfl)
    rw [hout]
    exact ⟨rfl, rfl⟩
  · exact (((error_stage_tag wConcatFail reqTwo).2.2 (by decide) (by decide)
      (by decide) (fun _ => rfl)).2.1 (fun _ _ => rfl)).1 rfl
  · exact (((error_stage_tag wMuxFail reqTwo).2.2 (by decide) (by decide)
      (by decide) (fun _ => rfl)).2.1 (fun _ _ => rfl)).2 rfl rfl
  · exact ((error_stage_tag wUploadFail reqTwo).2.2 (by decide) (by decide)
      (by decide) (fun _ => rfl)).2.2 (fun _ => rfl) (by decide) rfl

/-- C3: for every request that reaches a successful render, the number of
segments encoded equals the number of scenes whose normalized image URL is
non-empty and whose seconds are strictly positive; and when all external
collaborators succeed, a request with at least one valid scene succeeds
even if other scenes are invalid (they are skipped, not fatal). -/
theorem segment_count_matches_valid_scenes (w : World) (data : RenderRequest) :
    ((render w data).response.code = 200 →
      (render w data).state.seg_files.length =
        validSceneCount (data.scenes.getD [])) ∧
    (w.allOk → data.scenes.getD [] ≠ [] → clean_url data.audio_url ≠ "" →
      validSceneCount (data.scenes.getD []) ≠ 0 →
      (render w data).response.code = 200) := by
  constructor
  · intro h
    obtain ⟨hstate, _⟩ := render_code200 w data h
    rw [hstate]
    exact validIds_length_enumFrom (data.scenes.getD []) 1
  · exact render_allOk_code w data

/-- C3 witness: a three-scene request with one invalid scene still renders
and encodes exactly the two valid scenes. -/
theorem segment_count_matches_valid_scenes_witness :
    (render wOk reqMixed).response.code = 200 ∧
    (render wOk reqMixed).state.seg_files.length =
      validSceneCount (reqMixed.scenes.getD []) ∧
    validSceneCount (reqMixed.scenes.getD []) = 2 ∧
    (reqMixed.scenes.getD []).length = 3 := by
  have h200 := (segment_count_matches_valid_scenes wOk reqMixed).2
    ⟨fun _ => rfl, fun _ => rfl, by decide, rfl⟩ (by decide) (by decide) (by decide)
  exact ⟨h200, (segment_count_matches_valid_scenes wOk reqMixed).1 h200,
    by decide, by decide⟩

/-- C4 counterexample: a request whose only scene is invalid is rejected
with 400 — but only after the pipeline was entered and the audio scratch
file was created and downloaded, contradicting "without entering the
pipeline and without allocating any scratch file". -/
theorem all_invalid_scenes_allocates_audio :
    (render wOk reqAllBad).response.code = 400 ∧
    (render wOk reqAllBad).state.created = [ScratchFile.audio] ∧
    (render wOk reqAllBad).state.events =
      [Event.fetchAudio ("https://audio.example/a.mp3")] := by decide

/-- C4 (amended): a raw-empty scenes list or an empty normalized audio URL
is rejected 400 before the pipeline with no scratch file created; a request
whose scenes are all invalid (raw list non-empty) is also rejected 400, but
only after entering the pipeline and downloading the audio, so the audio
scratch file is created (cleanup then removes it). -/
theorem validation_reject_paths (w : World) (data : RenderRequest) :
    ((data.scenes.getD [] = [] ∨ clean_url data.audio_url = "") →
      (render w data).response.code = 400 ∧
      (render w data).state.created = []) ∧
    (data.scenes.getD [] ≠ [] → clean_url data.audio_url ≠ "" →
      w.fetchOk (clean_url data.audio_url) = true →
      validSceneCount (data.scenes.getD []) = 0 →
      (render w data).response =
        { code := 400, status := "error",
          error := some ("No se generaron segmentos") } ∧
      (render w data).state.created = [ScratchFile.audio]) := by
  constructor
  · intro h
    rw [render_eq]
    by_cases h1 : data.scenes.getD [] = []
    · rw [if_pos h1]; exact ⟨rfl, rfl⟩
    · have h2 : clean_url data.audio_url = "" := h.resolve_left h1
      rw [if_neg h1, if_pos h2]; exact ⟨rfl, rfl⟩
  · intro h1 h2 h3 h4
    have hall : ∀ p ∈ List.enumFrom 1 (data.scenes.getD []), sceneSkipped p.2 :=
      fun p hp => validSceneCount_zero (data.scenes.getD []) h4 p.2
        (snd_mem_of_mem_enumFrom (data.scenes.getD []) 1 p hp)
    rw [render_eq, if_neg h1, if_neg h2, if_neg (by simp [h3])]
    rw [processScenes_allSkipped w _ _ _ _ _ hall]
    exact ⟨rfl, rfl⟩

/-- C4 witness: the amended claim at a concrete empty-scenes request and at
a concrete all-invalid-scenes request. -/
theorem validation_reject_paths_witness :
    ((render wOk { scenes := some [] }).response.code = 400 ∧
     (render wOk { scenes := some [] }).state.created = []) ∧
    ((render wOk reqAllBad).response =
       { code := 400, status := "error",
         error := some ("No se generaron segmentos") } ∧
     (render wOk reqAllBad).state.created = [ScratchFile.audio]) :=
  ⟨(validation_reject_paths wOk { scenes := some [] }).1 (Or.inl rfl),
   (validation_reject_paths wOk reqAllBad).2 (by decide) (by decide) rfl (by decide)⟩

/-- C5 counterexample: on a URL containing a raw internal space, the code's
normalization returns the input verbatim while the spec-described
strip/percent-decode/re-escape normalization yields the escaped form — the
code performs no percent-decoding and no whitespace re-escaping. -/
theorem url_normalization_counterexample :
    clean_url (some ("https://x/a b")) = "https://x/a b" ∧
    spec_normalize_url ("https://x/a b") = "https://x/a%20b" ∧
    clean_url (some ("https://x/a b")) ≠ spec_normalize_url ("https://x/a b") := by
  decide

/-- C5 (amended): the URL normalization strips surrounding whitespace and
one pair of matching surrounding quote characters and otherwise uses the
URL verbatim: its output is always a contiguous substring of the input (no
percent-decoding, no re-escaping), an input with no surrounding whitespace
or leading quote is returned unchanged, and a missing URL maps to the empty
string. -/
theorem url_normalization_verbatim (u : String) :
    (clean_url (some u)).data <:+: u.data ∧
    ((∀ c, u.data.head? = some c →
        c.isWhitespace = false ∧ c ≠ dquote ∧ c ≠ squote) →
      (∀ c, u.data.getLast? = some c → c.isWhitespace = false) →
      clean_url (some u) = u) ∧
    clean_url none = "" :=
  ⟨clean_url_substring u, fun h1 h2 => clean_url_plain u h1 h2, rfl⟩

/-- C5 witness: the amended normalization claim at a concrete URL. -/
theorem url_normalization_verbatim_witness :
    (clean_url (some ("https://x/a b"))).data <:+:
      ("https://x/a b" : String).data ∧
    clean_url (some ("https://x/a b")) = "https://x/a b" :=
  ⟨(url_normalization_verbatim ("https://x/a b")).1,
   (url_normalization_verbatim ("https://x/a b")).2.1
     (fun c hc => by injection hc with h; rw [← h]; decide)
     (fun c hc => by injection hc with h; rw [← h]; decide)⟩

/-- C6: the mux command stream-copies the video, transcodes the audio to
AAC at the 192k bitrate, and passes the shortest-stream flag; under the
modelled shortest-stream semantics of the external encoder the output
duration is min(videoDuration, audioDuration), within one frame at any
positive fps (indeed exactly). -/
theorem mux_flags_and_duration :
    flagValue mux_cmd ("-c:v") = some ("copy") ∧
    flagValue mux_cmd ("-c:a") = some ("aac") ∧
    flagValue mux_cmd ("-b:a") = some ("192k") ∧
    mux_cmd.contains ("-shortest") = true ∧
    ∀ (videoDur audioDur : ℚ) (fps : Int), 0 < fps →
      |ffmpegMuxDuration (mux_cmd.contains ("-shortest")) videoDur audioDur -
        min videoDur audioDur| ≤ 1 / (fps : ℚ) := by
  refine ⟨by decide, by decide, by decide, by decide, ?_⟩
  intro v a fps hfps
  have hc : mux_cmd.contains ("-shortest") = true := by decide
  rw [hc]
  have hd : ffmpegMuxDuration true v a = min v a := by
    simp [ffmpegMuxDuration]
  rw [hd, sub_self, abs_zero]
  have h2 : (0 : ℚ) < (fps : ℚ) := by exact_mod_cast hfps
  exact le_of_lt (by positivity)

/-- C6 witness: the duration bound at concrete durations and fps. -/
theorem mux_flags_and_duration_witness :
    |ffmpegMuxDuration (mux_cmd.contains ("-shortest")) 10 6 - min 10 6| ≤
      1 / ((24 : Int) : ℚ) :=
  mux_flags_and_duration.2.2.2.2 10 6 24 (by decide)

/-- C7 counterexample: at a concrete two-scene request with all
collaborators succeeding, the first scene's encode runs before the second
scene's image download (events index 2 vs 3) — downloads and encodes are
interleaved per scene, so the Fetching phase does not complete before the
Encoding phase begins. -/
theorem pipeline_order_counterexample :
    (render wOk reqTwo).state.events =
      [Event.fetchAudio ("https://audio.example/a.mp3"),
       Event.fetchImage 1 ("https://imgs.example/1.jpg"), Event.encodeSeg 1,
       Event.fetchImage 2 ("https://imgs.example/2.jpg"), Event.encodeSeg 2,
       Event.concatStep, Event.muxStep, Event.uploadStep] ∧
    fetchPhaseBeforeEncodes (render wOk reqTwo).state.events = false := by decide

/-- C7 (amended): for every request that reaches a successful render the
audio is downloaded first; then the valid scenes are processed strictly in
input order with each scene's image download immediately followed by that
same scene's segment encode (fetching and encoding are interleaved per
scene, not phased); the concat, mux and upload steps follow in order. -/
theorem pipeline_order_interleaved (w : World) (data : RenderRequest)
    (h : (render w data).response.code = 200) :
    (render w data).state.events =
      Event.fetchAudio (clean_url data.audio_url) ::
        (validEvents (List.enumFrom 1 (data.scenes.getD [])) ++
          [Event.concatStep, Event.muxStep, Event.uploadStep]) := by
  obtain ⟨hstate, _⟩ := render_code200 w data h
  rw [hstate]

/-- C7 witness: the amended ordering claim at a concrete two-scene
request. -/
theorem pipeline_order_interleaved_witness :
    (render wOk reqTwo).state.events =
      Event.fetchAudio (clean_url reqTwo.audio_url) ::
        (validEvents (List.enumFrom 1 (reqTwo.scenes.getD [])) ++
          [Event.concatStep, Event.muxStep, Event.uploadStep]) :=
  pipeline_order_interleaved wOk reqTwo (by decide)

/-- C8 counterexample: when deleting the audio file fails, the remaining
scratch files are not deleted either — the image file whose removal would
have succeeded stays on disk — so cleanup is not best-effort per file
(though the 200 response is unchanged). -/
theorem cleanup_abort_counterexample :
    (render wAudioRemoveFail reqTwo).response.code = 200 ∧
    wAudioRemoveFail.removeOk (ScratchFile.image 1) = true ∧
    ScratchFile.image 1 ∈ (render wAudioRemoveFail reqTwo).remaining ∧
    (render wAudioRemoveFail reqTwo).remaining =
      (render wAudioRemoveFail reqTwo).state.created := by decide

/-- C8 (amended): a deletion failure is swallowed and never alters the
response — the response is independent of the deletion oracle — but it
aborts the remainder of cleanup: once one removal fails, no later candidate
in the deletion sequence is deleted. -/
theorem cleanup_swallowed_but_aborts :
    (∀ (w : World) (r : ScratchFile → Bool) (data : RenderRequest),
      (render { w with removeOk := r } data).response =
        (render w data).response) ∧
    (∀ (w : World) (created rest removed : List ScratchFile) (f : ScratchFile),
      w.removeOk f = false → f ∈ created → f ∉ removed →
      runCleanup w created (f :: rest) removed = removed) := by
  constructor
  · intro w r data
    exact (render_removeOk w r data).1
  · intro w created rest removed f hok hmem hnr
    rw [runCleanup, if_pos ⟨hmem, hnr⟩, if_neg (by simp [hok])]

/-- C8 witness: the amended claim at a concrete failing deletion — the
response is unchanged and the aborted cleanup removes nothing further. -/
theorem cleanup_swallowed_but_aborts_witness :
    (render { wOk with removeOk := wAudioRemoveFail.removeOk } reqTwo).response =
      (render wOk reqTwo).response ∧
    runCleanup wAudioRemoveFail [ScratchFile.audio, ScratchFile.image 1]
      [ScratchFile.audio, ScratchFile.image 1] [] = [] :=
  ⟨cleanup_swallowed_but_aborts.1 wOk wAudioRemoveFail.removeOk reqTwo,
   cleanup_swallowed_but_aborts.2 wAudioRemoveFail
     [ScratchFile.audio, ScratchFile.image 1] [ScratchFile.image 1] []
     ScratchFile.audio (by decide) (by decide) (by decide)⟩

/-- C9: on every successful render the scenes field of the response's meta
object equals the number of segments actually encoded — the count of valid
scenes — not the length of the scenes array in the request body. -/
theorem meta_scene_count (w : World) (data : RenderRequest)
    (h : (render w data).response.code = 200) :
    (render w data).response.meta =
      some { w := data.size_w.getD 1280, h := data.size_h.getD 720,
             fps := data.fps.getD 24,
             scenes := (render w data).state.seg_files.length } ∧
    (render w data).response.meta.map Meta.scenes =
      some (validSceneCount (data.scenes.getD [])) := by
  obtain ⟨hstate, hresp⟩ := render_code200 w data h
  constructor
  · rw [hresp, hstate]
  · rw [hresp]
    simp [Meta.scenes, validIds_length_enumFrom (data.scenes.getD []) 1]

/-- C9 witness: at a request whose scenes array has three entries of which
one is invalid, the reported meta scene count is 2, not 3. -/
theorem meta_scene_count_witness :
    (render wOk reqMixed).response.meta.map Meta.scenes = some 2 ∧
    (reqMixed.scenes.getD []).length = 3 := by
  have h := (meta_scene_count wOk reqMixed (by decide)).2
  exact ⟨by rw [h]; decide, by decide⟩

/-- C10: URL normalization is total on a missing value — `clean_url` of
None is the empty string, it never raises — so a request whose audio URL
field is absent or null is rejected with a 400 validation response rather
than a 500, with no scratch file created. -/
theorem none_audio_url_rejected (w : World) (data : RenderRequest)
    (h : data.audio_url = none) :
    clean_url none = "" ∧
    (render w data).response.code = 400 ∧
    (render w data).state.created = [] ∧
    (render w data).remaining = [] := by
  refine ⟨rfl, ?_⟩
  have hcu : clean_url data.audio_url = "" := by rw [h]; rfl
  rw [render_eq]
  by_cases h1 : data.scenes.getD [] = []
  · rw [if_pos h1]; exact ⟨rfl, rfl, rfl⟩
  · rw [if_neg h1, if_pos hcu]; exact ⟨rfl, rfl, rfl⟩

/-- C10 witness: a concrete request with a null audio URL is rejected 400
with nothing downloaded. -/
theorem none_audio_url_rejected_witness :
    clean_url none = "" ∧
    (render wOk reqNoAudio).response.code = 400 ∧
    (render wOk reqNoAudio).state.created = [] ∧
    (render wOk reqNoAudio).remaining = [] :=
  none_audio_url_rejected wOk reqNoAudio rfl
